import Mathlib

/-!
Verification of the civic-complaint classification service.

The pipeline under study: sanitize → prompt → model gateway → JSON
extraction → schema validation → confidence enforcement → keyword
overrides, with a fixed fallback on any failure.

Modelling conventions:
* Python strings are `String` (lists of characters); `text.strip()`,
  slicing, `str.lower()` and the `in` operator are given explicit
  character-list definitions below (ASCII whitespace/case, matching the
  reference behaviour on the keyword alphabet the code uses).
* The float `confidence` is modelled as `Rat`; every comparison the code
  performs (`0 <= c <= 1`, `c < 0.6`) is exact at the constants involved.
* The external collaborators — the model gateway (`requests.post` +
  `response.json()["response"]`) and the stdlib JSON decoder
  (`json.loads`) — are parameters of the functions that call them:
  `gw : String → Except String String` and
  `loads : String → Except String Json`, failure standing for a raised
  exception.
* `re.search(r'\x7b.*\x7d', text, re.DOTALL)` and
  `re.search(r'(\d+)\s*day', lower)` are modelled operationally
  (leftmost match, greedy repetition) by `searchBrace` and `findDayNum`.
-/

namespace AIService

/-- ASCII whitespace stripped by Python `str.strip()` and matched by the
regex class `\s`. -/
def pySpace (c : Char) : Bool :=
  c = ' ' || c = '\t' || c = '\n' || c = '\r' || c = '\x0b' || c = '\x0c'

/-- Python `text.strip()`: drop whitespace from both ends. -/
def pyStrip (s : String) : String :=
  String.mk (((s.data.dropWhile pySpace).reverse.dropWhile pySpace).reverse)

/-- `sanitize_input(text) = text.strip()[:1000]` (classifier.py, lines 33–34). -/
def sanitize_input (text : String) : String :=
  String.mk ((pyStrip text).data.take 1000)

/-- Python `text.lower()` (ASCII case mapping). -/
def pyLower (s : String) : String :=
  String.mk (s.data.map Char.toLower)

/-- `startsWithList n h`: the character list `n` is an initial segment of `h`. -/
def startsWithList : List Char → List Char → Bool
  | [], _ => true
  | _ :: _, [] => false
  | a :: ns, b :: hs => a = b && startsWithList ns hs

/-- `strIn n h`: `n` occurs as a contiguous sublist of `h`. -/
def strIn (needle : List Char) : List Char → Bool
  | [] => needle.isEmpty
  | c :: t => startsWithList needle (c :: t) || strIn needle t

/-- Python `needle in hay` on strings. -/
def pyContains (hay needle : String) : Bool :=
  strIn needle.data hay.data

/-- Python `any(word in lower for word in words)`. -/
def anyWordIn (words : List String) (lower : String) : Bool :=
  words.any fun w => pyContains lower w

/-- Keyword group checked first by `override_department`. -/
def electricityWords : List String :=
  ["street light", "streetlight", "power line",
   "electricity", "transformer", "electric pole"]

/-- Keyword group checked second by `override_department`. -/
def sanitationWords : List String :=
  ["garbage", "waste", "drain", "sewage", "overflow", "trash"]

/-- Keyword group checked third by `override_department`. -/
def waterWords : List String :=
  ["water supply", "pipeline", "tap water", "water leakage", "no water"]

/-- Keyword group checked fourth by `override_department`. -/
def roadsWords : List String :=
  ["road damage", "pothole", "road crack"]

/-- Keyword group checked fifth by `override_department`. -/
def safetyWords : List String :=
  ["fight", "harassment", "theft", "unsafe", "crime"]

/-- `override_department` (classifier.py, lines 72–104): lowercase the
text, check the five keyword groups in order, first match wins, else
return the model's prediction. -/
def override_department (text predicted : String) : String :=
  if anyWordIn electricityWords (pyLower text) then "ELECTRICITY"
  else if anyWordIn sanitationWords (pyLower text) then "SANITATION"
  else if anyWordIn waterWords (pyLower text) then "WATER"
  else if anyWordIn roadsWords (pyLower text) then "ROADS"
  else if anyWordIn safetyWords (pyLower text) then "PUBLIC_SAFETY"
  else predicted

/-- Hazard keywords of `override_priority`. -/
def hazardWords : List String :=
  ["electric shock", "live wire", "fire", "accident", "collapse"]

/-- Decimal value of a digit run, as Python `int()` on the matched group. -/
def natOfDigits (ds : List Char) : Nat :=
  ds.foldl (fun n c => 10 * n + (c.toNat - 48)) 0

/-- Attempt to match the regex `(\d+)\s*day` at the head of `l`: a
non-empty (greedy, hence maximal) digit run, then whitespace, then the
literal `day`.  Returns the integer value of the digit group. -/
def matchDayAt (l : List Char) : Option Nat :=
  match l.span Char.isDigit with
  | ([], _) => none
  | (ds, rest) =>
      if startsWithList ['d', 'a', 'y'] (rest.dropWhile pySpace)
      then some (natOfDigits ds) else none

/-- `re.search(r'(\d+)\s*day', lower)`: the leftmost match wins; only
its digit group is reported.  (Backtracking cannot help this pattern: a
shorter digit run leaves a digit where `\s*day` must start, so the
maximal-run model coincides with the regex engine.) -/
def findDayNum : List Char → Option Nat
  | [] => none
  | c :: t =>
    match matchDayAt (c :: t) with
    | some n => some n
    | none => findDayNum t

/-- `override_priority` (classifier.py, lines 110–128): hazard keywords
force HIGH; otherwise the first `<integer> day` match with value ≥ 4
forces HIGH; otherwise the prediction passes through. -/
def override_priority (text predicted : String) : String :=
  if anyWordIn hazardWords (pyLower text) then "HIGH"
  else
    match findDayNum (pyLower text).data with
    | some days => if 4 ≤ days then "HIGH" else predicted
    | none => predicted

/-- The validated model response (validator.py, lines 5–19): the pydantic
model `ClassificationResponse`.  Field values stay strings, exactly as in
the Python object; `validate` below is the only constructor used. -/
structure ClassificationResponse where
  intent : String
  department : String
  priority : String
  confidence : Rat
deriving DecidableEq, Repr

/-- The closed department enumeration of the `Literal` type. -/
def departments : List String :=
  ["SANITATION", "WATER", "ELECTRICITY", "ROADS", "PUBLIC_SAFETY", "OTHER"]

/-- The closed priority enumeration of the `Literal` type. -/
def priorities : List String :=
  ["LOW", "MEDIUM", "HIGH"]

/-- JSON values as produced by the stdlib decoder. -/
inductive Json where
  | str (s : String)
  | num (q : Rat)
  | bool (b : Bool)
  | null
  | arr (elems : List Json)
  | obj (fields : List (String × Json))

/-- The decimal-string grammar accepted by pydantic's default lax
("smart") coercion of a string to a `float` field: surrounding
whitespace is trimmed, then an optional sign, decimal digits with an
optional fraction part, and an optional `e`/`E` exponent.  The parsed
value is returned as a pair `(n, k)` standing for `n / 10 ^ k`.
The special strings `inf`/`infinity`/`nan` that the coercion also
accepts are omitted: they can never pass the `[0, 1]` range check that
follows, so the validator's accept set is unchanged. -/
def pyFloatParts (s : String) : Option (Int × Nat) :=
  let l := ((s.data.dropWhile pySpace).reverse.dropWhile pySpace).reverse
  let (sgn, l1) : Int × List Char :=
    match l with
    | '-' :: r => (-1, r)
    | '+' :: r => (1, r)
    | _ => (1, l)
  let ds1 := l1.takeWhile Char.isDigit
  let r1 := l1.dropWhile Char.isDigit
  let (ds2, r2) : List Char × List Char :=
    match r1 with
    | '.' :: r => (r.takeWhile Char.isDigit, r.dropWhile Char.isDigit)
    | _ => ([], r1)
  if ds1.isEmpty && ds2.isEmpty then none
  else
    let mant : Int := sgn * (natOfDigits (ds1 ++ ds2) : Int)
    match r2 with
    | [] => some (mant, ds2.length)
    | e :: r3 =>
      if e = 'e' || e = 'E' then
        let (esgn, r4) : Int × List Char :=
          match r3 with
          | '-' :: r => (-1, r)
          | '+' :: r => (1, r)
          | _ => (1, r3)
        let eds := r4.takeWhile Char.isDigit
        let r5 := r4.dropWhile Char.isDigit
        if eds.isEmpty || !r5.isEmpty then none
        else
          let expo : Int := esgn * (natOfDigits eds : Int)
          if (ds2.length : Int) ≤ expo then
            some (mant * 10 ^ (expo - ds2.length).toNat, 0)
          else some (mant, (ds2.length - expo).toNat)
      else none

/-- The rational value of a lax-coerced numeric string, if it parses. -/
def pyFloatOfString (s : String) : Option Rat :=
  (pyFloatParts s).map fun nk => (nk.1 : Rat) / (10 : Rat) ^ nk.2

/-- Pydantic's default lax-mode reading of a `float` field from a JSON
value: a JSON number (ints are coerced to float) is used as-is, a
numeric string is coerced via the decimal parser, and everything else
(bool, null, array, object) is rejected. -/
def laxFloat : Json → Option Rat
  | .num c => some c
  | .str s => pyFloatOfString s
  | _ => none

/-- `ClassificationResponse(**json_data)` (validator.py): every field must
be present, `intent` must be the literal `COMPLAINT`, `department` and
`priority` must be strings inside their closed enumerations (the
`Literal` types coerce nothing), and `confidence` must read as a float
under pydantic's default lax mode — a JSON number, or a numeric string
coerced to its value — and lie in [0, 1].  Anything else raises a
pydantic `ValidationError`, modelled as `.error`. -/
def ClassificationResponse.validate (j : Json) : Except String ClassificationResponse :=
  match j with
  | .obj fields =>
    match fields.lookup "intent", fields.lookup "department",
          fields.lookup "priority", fields.lookup "confidence" with
    | some (.str i), some (.str d), some (.str p), some cj =>
      match laxFloat cj with
      | some c =>
        if i = "COMPLAINT" then
          if d ∈ departments then
            if p ∈ priorities then
              if 0 ≤ c ∧ c ≤ 1 then .ok ⟨i, d, p, c⟩
              else .error "confidence out of range"
            else .error "priority not in enumeration"
          else .error "department not in enumeration"
        else .error "intent must be COMPLAINT"
      | none => .error "confidence is not a number"
    | _, _, _, _ => .error "missing field or wrong type"
  | _ => .error "model output is not a JSON object"

/-- Index of the last occurrence of `c` in `l`, if any. -/
def lastIdxOf (c : Char) : List Char → Option Nat
  | [] => none
  | a :: t =>
    match lastIdxOf c t with
    | some k => some (k + 1)
    | none => if a = c then some 0 else none

/-- Index of the first occurrence of `c` in `l`, if any. -/
def firstIdxOf (c : Char) : List Char → Option Nat
  | [] => none
  | a :: t => if a = c then some 0 else (firstIdxOf c t).map (· + 1)

/-- Operational model of `re.search(r'\x7b.*\x7d', text, re.DOTALL)`:
scan for the leftmost position whose character is `{` and that is
followed, somewhere later, by a `}`; the greedy `.*` under DOTALL then
extends the match to the last `}` of the remaining text. -/
def searchBrace : List Char → Option (List Char)
  | [] => none
  | c :: t =>
    if c = '\x7b' then
      match lastIdxOf '\x7d' t with
      | some k => some (c :: t.take (k + 1))
      | none => searchBrace t
    else searchBrace t

/-- The spec's description of the extractor's span: the substring from
the first `{` of the text to its last `}`, provided the first `{` comes
before the last `}`. -/
def specBraceSpan (l : List Char) : Option (List Char) :=
  match firstIdxOf '\x7b' l, lastIdxOf '\x7d' l with
  | some i, some j => if i < j then some ((l.drop i).take (j - i + 1)) else none
  | _, _ => none

/-- Errors of the extraction stage: `ValueError("No JSON found in
response")` or a `json.JSONDecodeError` from `json.loads`. -/
inductive ExtractError where
  | extraction (msg : String)
  | parse (msg : String)
deriving DecidableEq, Repr

/-- `extract_json` (classifier.py, lines 61–66): regex-search for the
brace span, fail if there is none, otherwise hand the span to the JSON
decoder `loads`. -/
def extract_json (loads : String → Except String Json) (text : String) :
    Except ExtractError Json :=
  match searchBrace text.data with
  | none => .error (.extraction "No JSON found in response")
  | some span => (loads (String.mk span)).mapError ExtractError.parse

/-- `apply_overrides` (classifier.py, lines 135–158): replace the
department and priority fields by their overridden values (the log lines
are observability only and carry no state). -/
def apply_overrides (text : String) (validated : ClassificationResponse) :
    ClassificationResponse :=
  { validated with
    department := override_department text validated.department,
    priority := override_priority text validated.priority }

/-- Confidence enforcement (classifier.py, lines 180–181): a validated
result with confidence below 0.6 has its department forced to OTHER. -/
def enforceConfidence (r : ClassificationResponse) : ClassificationResponse :=
  if r.confidence < 0.6 then { r with department := "OTHER" } else r

/-- The fixed instruction template `SYSTEM_PROMPT` (classifier.py,
lines 9–28). -/
def SYSTEM_PROMPT : String :=
  "\nYou are a civic complaint classification engine.\n\nRespond ONLY in strict JSON format:\n\n\x7b\n  \"intent\": \"COMPLAINT\",\n  \"department\": \"SANITATION | WATER | ELECTRICITY | ROADS | PUBLIC_SAFETY | OTHER\",\n  \"priority\": \"LOW | MEDIUM | HIGH\",\n  \"confidence\": 0.0-1.0\n\x7d\n\nRules:\n- Choose exactly ONE department.\n- Do NOT combine values.\n- No explanation text.\n- No markdown.\n- No extra fields.\n- If unsure, choose OTHER.\n"

/-- The prompt sent to the gateway:
`SYSTEM_PROMPT + f"\nComplaint: ..."` over the sanitized text. -/
def full_prompt (text : String) : String :=
  SYSTEM_PROMPT ++ "\nComplaint: " ++ sanitize_input text

/-- The hardcoded fallback of `classify`'s `except` branch. -/
def fallbackResponse : ClassificationResponse :=
  ⟨"COMPLAINT", "OTHER", "MEDIUM", 0.5⟩

/-- `classify` (classifier.py, lines 164–197): the orchestrator.  Any
failing stage (gateway, extraction, validation) lands in the `except`
branch, which returns the fallback verbatim; the happy path applies
confidence enforcement and then the override layer to the validated
response. -/
def classify (gw : String → Except String String)
    (loads : String → Except String Json) (text : String) :
    ClassificationResponse :=
  match gw (full_prompt text) with
  | .error _ => fallbackResponse
  | .ok raw_output =>
    match extract_json loads raw_output with
    | .error _ => fallbackResponse
    | .ok json_data =>
      match ClassificationResponse.validate json_data with
      | .error _ => fallbackResponse
      | .ok validated =>
          apply_overrides (sanitize_input text) (enforceConfidence validated)

/-! ### Helper lemmas -/

theorem override_department_idem (text d : String) :
    override_department text (override_department text d) = override_department text d := by
  unfold override_department
  split_ifs <;> rfl

theorem override_priority_idem (text p : String) :
    override_priority text (override_priority text p) = override_priority text p := by
  unfold override_priority
  split_ifs with h
  · rfl
  · cases hfd : findDayNum (pyLower text).data with
    | none => simp [h, hfd]
    | some days =>
        simp only [hfd]
        split_ifs with h4
        · rfl
        · simp [h, hfd, h4]

/-! ### Claim theorems -/

/-- Claim C10: `apply_overrides` modifies at most the department and
priority fields; the intent and confidence of the returned result always
equal those of the input result. -/
theorem apply_overrides_frame (text : String) (r : ClassificationResponse) :
    (apply_overrides text r).intent = r.intent ∧
    (apply_overrides text r).confidence = r.confidence :=
  ⟨rfl, rfl⟩

/-- Claim C9: the Override Engine is idempotent — applying it twice to a
result, with the same text, produces the same value as applying it once. -/
theorem apply_overrides_idem (text : String) (r : ClassificationResponse) :
    apply_overrides text (apply_overrides text r) = apply_overrides text r := by
  simp [apply_overrides, override_department_idem, override_priority_idem]

/-- Claim C6 (counterexample): the claim "for any string longer than 1000
characters the sanitized text has length exactly 1000" fails on a string
of 1001 characters that is mostly trailing whitespace: stripping runs
before truncation, so the result has length 1, not 1000. -/
theorem sanitize_input_long_cex :
    1000 < (String.mk ('a' :: List.replicate 1000 ' ')).length ∧
    (sanitize_input (String.mk ('a' :: List.replicate 1000 ' '))).length ≠ 1000 := by
  have hdropSp : ∀ (n : Nat) (l : List Char),
      List.dropWhile pySpace (List.replicate n ' ' ++ l) = List.dropWhile pySpace l := by
    intro n
    induction n with
    | zero => intro l; rfl
    | succ m ih =>
        intro l
        rw [List.replicate_succ, List.cons_append, List.dropWhile_cons]
        rw [if_pos (by decide)]
        exact ih l
  have hstrip : pyStrip (String.mk ('a' :: List.replicate 1000 ' ')) = String.mk ['a'] := by
    unfold pyStrip
    rw [show (String.mk ('a' :: List.replicate 1000 ' ')).data
          = 'a' :: List.replicate 1000 ' ' from rfl]
    rw [List.dropWhile_cons, if_neg (by decide), List.reverse_cons, List.reverse_replicate,
        hdropSp]
    rfl
  constructor
  · show 1000 < ('a' :: List.replicate 1000 ' ').length
    rw [List.length_cons, List.length_replicate]
    omega
  · show (String.mk ((pyStrip (String.mk ('a' :: List.replicate 1000 ' '))).data.take 1000)).length
        ≠ 1000
    rw [hstrip]
    decide

/-- Claim C6 (amended): `sanitize_input` is total over strings, strips
whitespace from both ends, then truncates to at most 1000 characters;
whenever the TRIMMED text is longer than 1000 characters the result has
length exactly 1000 and equals the first 1000 characters of the trimmed
input. -/
theorem sanitize_input_spec (s : String) :
    sanitize_input s = String.mk ((pyStrip s).data.take 1000)
  ∧ (sanitize_input s).length ≤ 1000
  ∧ (1000 < (pyStrip s).length → (sanitize_input s).length = 1000) := by
  refine ⟨rfl, ?_, ?_⟩
  · show ((pyStrip s).data.take 1000).length ≤ 1000
    simp [List.length_take]
  · intro h
    show ((pyStrip s).data.take 1000).length = 1000
    have h' : 1000 < (pyStrip s).data.length := h
    simp [List.length_take]
    omega

theorem startsWithList_map (f : Char → Char) :
    ∀ n h : List Char, startsWithList n h = true →
      startsWithList (n.map f) (h.map f) = true := by
  intro n
  induction n with
  | nil => intro h _; rfl
  | cons a ns ih =>
    intro h hh
    cases h with
    | nil => simp [startsWithList] at hh
    | cons b hs =>
        simp only [startsWithList, Bool.and_eq_true, decide_eq_true_eq] at hh
        simp only [List.map_cons, startsWithList, Bool.and_eq_true, decide_eq_true_eq]
        exact ⟨by rw [hh.1], ih hs hh.2⟩

theorem strIn_map (f : Char → Char) (n : List Char) :
    ∀ h : List Char, strIn n h = true → strIn (n.map f) (h.map f) = true := by
  intro h
  induction h with
  | nil =>
      intro hh
      cases n with
      | nil => rfl
      | cons a ns => simp [strIn, List.isEmpty] at hh
  | cons c t ih =>
      intro hh
      simp only [strIn, Bool.or_eq_true] at hh
      simp only [List.map_cons, strIn, Bool.or_eq_true]
      rcases hh with hpre | htail
      · exact Or.inl (by simpa using startsWithList_map f n (c :: t) hpre)
      · exact Or.inr (ih htail)

/-- Text containing a needle that is invariant under lowercasing still
contains it after `str.lower()`. -/
theorem pyContains_pyLower (s w : String) (hw : w.data.map Char.toLower = w.data)
    (h : pyContains s w = true) : pyContains (pyLower s) w = true := by
  have h2 := strIn_map Char.toLower w.data s.data h
  rw [hw] at h2
  exact h2

theorem anyWordIn_of_mem (words : List String) (lower w : String)
    (hmem : w ∈ words) (h : pyContains lower w = true) :
    anyWordIn words lower = true := by
  unfold anyWordIn
  exact List.any_eq_true.2 ⟨w, hmem, h⟩

/-- Claim C3: `override_department` checks the keyword groups in the
fixed order electricity, sanitation, water, roads, public-safety; the
first matching group replaces the prediction unconditionally, no match
passes the prediction through, and in particular any text containing
both "transformer" and "garbage" resolves to ELECTRICITY for every
predicted department. -/
theorem override_department_spec (text predicted : String) :
    (anyWordIn electricityWords (pyLower text) = true →
       override_department text predicted = "ELECTRICITY")
  ∧ (anyWordIn electricityWords (pyLower text) = false →
     anyWordIn sanitationWords (pyLower text) = true →
       override_department text predicted = "SANITATION")
  ∧ (anyWordIn electricityWords (pyLower text) = false →
     anyWordIn sanitationWords (pyLower text) = false →
     anyWordIn waterWords (pyLower text) = true →
       override_department text predicted = "WATER")
  ∧ (anyWordIn electricityWords (pyLower text) = false →
     anyWordIn sanitationWords (pyLower text) = false →
     anyWordIn waterWords (pyLower text) = false →
     anyWordIn roadsWords (pyLower text) = true →
       override_department text predicted = "ROADS")
  ∧ (anyWordIn electricityWords (pyLower text) = false →
     anyWordIn sanitationWords (pyLower text) = false →
     anyWordIn waterWords (pyLower text) = false →
     anyWordIn roadsWords (pyLower text) = false →
     anyWordIn safetyWords (pyLower text) = true →
       override_department text predicted = "PUBLIC_SAFETY")
  ∧ (anyWordIn electricityWords (pyLower text) = false →
     anyWordIn sanitationWords (pyLower text) = false →
     anyWordIn waterWords (pyLower text) = false →
     anyWordIn roadsWords (pyLower text) = false →
     anyWordIn safetyWords (pyLower text) = false →
       override_department text predicted = predicted)
  ∧ (pyContains text "transformer" = true → pyContains text "garbage" = true →
       override_department text predicted = "ELECTRICITY") := by
  refine ⟨?_, ?_, ?_, ?_, ?_, ?_, ?_⟩
  · intro h1; simp [override_department, h1]
  · intro h1 h2; simp [override_department, h1, h2]
  · intro h1 h2 h3; simp [override_department, h1, h2, h3]
  · intro h1 h2 h3 h4; simp [override_department, h1, h2, h3, h4]
  · intro h1 h2 h3 h4 h5; simp [override_department, h1, h2, h3, h4, h5]
  · intro h1 h2 h3 h4 h5; simp [override_department, h1, h2, h3, h4, h5]
  · intro ht _
    have hlow := pyContains_pyLower text "transformer" (by decide) ht
    have helec := anyWordIn_of_mem electricityWords (pyLower text) "transformer"
      (by decide) hlow
    simp [override_department, helec]

/-- Claim C4: `override_priority` forces HIGH on any hazard keyword;
otherwise the first `<integer> day` substring match decides — HIGH when
the matched integer is ≥ 4, the model's prediction otherwise (only that
first match counts); with no match the prediction passes through.
Concretely "5 days" forces HIGH, "2 days" leaves the prediction, and a
later "9 days" after a "2 days" does not escalate. -/
theorem override_priority_spec (text predicted : String) :
    (anyWordIn hazardWords (pyLower text) = true →
       override_priority text predicted = "HIGH")
  ∧ (∀ n, anyWordIn hazardWords (pyLower text) = false →
       findDayNum (pyLower text).data = some n → 4 ≤ n →
       override_priority text predicted = "HIGH")
  ∧ (∀ n, anyWordIn hazardWords (pyLower text) = false →
       findDayNum (pyLower text).data = some n → n < 4 →
       override_priority text predicted = predicted)
  ∧ (anyWordIn hazardWords (pyLower text) = false →
       findDayNum (pyLower text).data = none →
       override_priority text predicted = predicted)
  ∧ override_priority "5 days" predicted = "HIGH"
  ∧ override_priority "2 days" predicted = predicted
  ∧ override_priority "2 days and then 9 days" predicted = predicted := by
  refine ⟨?_, ?_, ?_, ?_, ?_, ?_, ?_⟩
  · intro h1; simp [override_priority, h1]
  · intro n h1 h2 h3
    simp [override_priority, h1, h2, h3]
  · intro n h1 h2 h3
    simp only [override_priority, h1, Bool.false_eq_true, if_false, h2]
    rw [if_neg (by omega)]
  · intro h1 h2
    simp [override_priority, h1, h2]
  · rfl
  · rfl
  · rfl

/-- Claim C5: in `classify`, a validated confidence strictly below 0.6
forces the department to OTHER before the Override Engine runs, leaving
priority and the confidence value untouched; on the happy path the
orchestrator applies the enforcement step first and the overrides to its
result (shown at the concrete confidence 0.59 as well). -/
theorem confidence_floor_spec :
    (∀ r : ClassificationResponse, r.confidence < 0.6 →
       (enforceConfidence r).department = "OTHER")
  ∧ (∀ r : ClassificationResponse, (enforceConfidence r).intent = r.intent
       ∧ (enforceConfidence r).priority = r.priority
       ∧ (enforceConfidence r).confidence = r.confidence)
  ∧ (∀ (gw : String → Except String String) (loads : String → Except String Json)
       (text raw : String) (j : Json) (validated : ClassificationResponse),
       gw (full_prompt text) = .ok raw →
       extract_json loads raw = .ok j →
       ClassificationResponse.validate j = .ok validated →
       classify gw loads text =
         apply_overrides (sanitize_input text) (enforceConfidence validated))
  ∧ ((enforceConfidence ⟨"COMPLAINT", "WATER", "LOW", 0.59⟩).department = "OTHER"
       ∧ (enforceConfidence ⟨"COMPLAINT", "WATER", "LOW", 0.59⟩).priority = "LOW"
       ∧ (enforceConfidence ⟨"COMPLAINT", "WATER", "LOW", 0.59⟩).confidence = 0.59) := by
  refine ⟨?_, ?_, ?_, ?_⟩
  · intro r h
    simp [enforceConfidence, h]
  · intro r
    unfold enforceConfidence
    split_ifs <;> simp
  · intro gw loads text raw j validated h1 h2 h3
    simp only [classify, h1, h2, h3]
  · refine ⟨?_, ?_, ?_⟩ <;> simp [enforceConfidence] <;> norm_num

theorem validate_ok_inv (j : Json) (r : ClassificationResponse)
    (h : ClassificationResponse.validate j = .ok r) :
    r.intent = "COMPLAINT" ∧ r.department ∈ departments ∧ r.priority ∈ priorities ∧
    0 ≤ r.confidence ∧ r.confidence ≤ 1 := by
  unfold ClassificationResponse.validate at h
  split at h
  · split at h
    · split at h
      · split_ifs at h with h1 h2 h3 h4
        injection h with h5
        subst h5
        exact ⟨h1, h2, h3, h4.1, h4.2⟩
      · exact absurd h (by simp)
    · exact absurd h (by simp)
  · exact absurd h (by simp)

theorem override_department_mem (text d : String) (h : d ∈ departments) :
    override_department text d ∈ departments := by
  unfold override_department
  split_ifs <;> first | exact h | decide

theorem override_priority_mem (text p : String) (h : p ∈ priorities) :
    override_priority text p ∈ priorities := by
  unfold override_priority
  split
  · decide
  · split
    · split_ifs
      · decide
      · exact h
    · exact h

/-- Claim C1: for every input text (and whatever the gateway and the
JSON decoder do), `classify` returns a fully well-formed result: intent
COMPLAINT, department and priority inside their closed enumerations, and
confidence in [0, 1] — on the validated happy path and on the fallback
path alike. -/
theorem classify_wellformed (gw : String → Except String String)
    (loads : String → Except String Json) (text : String) :
    (classify gw loads text).intent = "COMPLAINT"
  ∧ (classify gw loads text).department ∈ departments
  ∧ (classify gw loads text).priority ∈ priorities
  ∧ 0 ≤ (classify gw loads text).confidence
  ∧ (classify gw loads text).confidence ≤ 1 := by
  have hfb : fallbackResponse.intent = "COMPLAINT"
      ∧ fallbackResponse.department ∈ departments
      ∧ fallbackResponse.priority ∈ priorities
      ∧ 0 ≤ fallbackResponse.confidence ∧ fallbackResponse.confidence ≤ 1 := by
    refine ⟨rfl, by decide, by decide, ?_, ?_⟩ <;> norm_num [fallbackResponse]
  cases hgw : gw (full_prompt text) with
  | error e => simp only [classify, hgw]; exact hfb
  | ok raw =>
    cases hex : extract_json loads raw with
    | error e => simp only [classify, hgw, hex]; exact hfb
    | ok j =>
      cases hval : ClassificationResponse.validate j with
      | error e => simp only [classify, hgw, hex, hval]; exact hfb
      | ok r =>
        simp only [classify, hgw, hex, hval]
        obtain ⟨hi, hd, hp, hc0, hc1⟩ := validate_ok_inv j r hval
        have henf : (enforceConfidence r).intent = r.intent
            ∧ (enforceConfidence r).department ∈ departments
            ∧ (enforceConfidence r).priority = r.priority
            ∧ (enforceConfidence r).confidence = r.confidence := by
          unfold enforceConfidence
          split_ifs
          · exact ⟨rfl, show "OTHER" ∈ departments by decide, rfl, rfl⟩
          · exact ⟨rfl, hd, rfl, rfl⟩
        refine ⟨?_, ?_, ?_, ?_, ?_⟩
        · show (enforceConfidence r).intent = "COMPLAINT"
          rw [henf.1, hi]
        · exact override_department_mem _ _ henf.2.1
        · exact override_priority_mem _ _ (henf.2.2.1 ▸ hp)
        · show 0 ≤ (enforceConfidence r).confidence
          rw [henf.2.2.2]; exact hc0
        · show (enforceConfidence r).confidence ≤ 1
          rw [henf.2.2.2]; exact hc1

/-- Claim C2: whenever the gateway call fails, the raw output has no
brace-delimited span, the span fails to decode, or validation rejects
the decoded object, `classify` swallows the error and returns exactly
the fixed fallback `⟨COMPLAINT, OTHER, MEDIUM, 0.5⟩` — and that fallback
is returned verbatim, not run through the Override Engine (which would
have changed it, e.g. for the text "fire"). -/
theorem classify_fallback_spec (gw : String → Except String String)
    (loads : String → Except String Json) (text : String) :
    (∀ e, gw (full_prompt text) = .error e →
       classify gw loads text = fallbackResponse)
  ∧ (∀ raw err, gw (full_prompt text) = .ok raw →
       extract_json loads raw = .error err →
       classify gw loads text = fallbackResponse)
  ∧ (∀ raw j msg, gw (full_prompt text) = .ok raw →
       extract_json loads raw = .ok j →
       ClassificationResponse.validate j = .error msg →
       classify gw loads text = fallbackResponse)
  ∧ fallbackResponse = ⟨"COMPLAINT", "OTHER", "MEDIUM", 0.5⟩
  ∧ apply_overrides "fire" fallbackResponse ≠ fallbackResponse := by
  refine ⟨?_, ?_, ?_, rfl, ?_⟩
  · intro e h1; simp only [classify, h1]
  · intro raw err h1 h2; simp only [classify, h1, h2]
  · intro raw j msg h1 h2 h3; simp only [classify, h1, h2, h3]
  · intro hEq
    have h1 : (apply_overrides "fire" fallbackResponse).priority = "HIGH" := rfl
    rw [hEq] at h1
    exact absurd h1 (by decide)

/-- Claim C7 (counterexample): pydantic's default lax mode coerces a
numeric STRING for `confidence` — here the string "0.7", which is not a
JSON number — to the float 0.7 and accepts the mapping, so a wrong-typed
confidence field does not produce a `ValidationError`: the claim's
"wrong type implies failure / no coercion beyond type and range
checking" direction is false of the code. -/
theorem validate_string_confidence_cex :
    ClassificationResponse.validate
      (.obj [("intent", Json.str "COMPLAINT"), ("department", Json.str "WATER"),
             ("priority", Json.str "LOW"), ("confidence", Json.str "0.7")])
      = .ok ⟨"COMPLAINT", "WATER", "LOW", 0.7⟩ := by
  have hparts : pyFloatParts "0.7" = some (7, 1) := by rfl
  have hlax : laxFloat (Json.str "0.7") = some 0.7 := by
    rw [laxFloat, pyFloatOfString, hparts]
    norm_num
  have hstep : ClassificationResponse.validate
      (.obj [("intent", Json.str "COMPLAINT"), ("department", Json.str "WATER"),
             ("priority", Json.str "LOW"), ("confidence", Json.str "0.7")])
      = match laxFloat (Json.str "0.7") with
        | some c =>
          if 0 ≤ c ∧ c ≤ 1 then .ok ⟨"COMPLAINT", "WATER", "LOW", c⟩
          else .error "confidence out of range"
        | none => .error "confidence is not a number" := rfl
  rw [hstep, hlax]
  dsimp only
  rw [if_pos (by norm_num : (0 : Rat) ≤ 0.7 ∧ (0.7 : Rat) ≤ 1)]

/-- Claim C7 (amended): constructing the validated response from a
parsed JSON value succeeds exactly when every field is present, `intent`
is the literal COMPLAINT, `department` and `priority` are strings in
their closed enumerations, and `confidence` reads as a float under
pydantic's default lax mode (a JSON number, or a numeric string coerced
to its value) lying in [0, 1]; everything else is a validation error,
and the enumeration fields are never coerced — an out-of-enum string is
rejected, not mapped to OTHER. -/
theorem validate_ok_iff_lax (j : Json) :
    ((∃ r, ClassificationResponse.validate j = .ok r) ↔
      (∃ fields d p cj c, j = .obj fields
        ∧ fields.lookup "intent" = some (.str "COMPLAINT")
        ∧ fields.lookup "department" = some (.str d) ∧ d ∈ departments
        ∧ fields.lookup "priority" = some (.str p) ∧ p ∈ priorities
        ∧ fields.lookup "confidence" = some cj ∧ laxFloat cj = some c
        ∧ 0 ≤ c ∧ c ≤ 1))
  ∧ ClassificationResponse.validate
      (.obj [("intent", .str "COMPLAINT"), ("department", .str "GARBAGE"),
             ("priority", .str "LOW"), ("confidence", .num 0.9)])
      = .error "department not in enumeration" := by
  constructor
  · constructor
    · rintro ⟨r, h⟩
      unfold ClassificationResponse.validate at h
      split at h
      · rename_i fields
        split at h
        · rename_i i d p cj hi hd hp hcj
          split at h
          · rename_i c hc
            split_ifs at h with h1 h2 h3 h4
            exact ⟨fields, d, p, cj, c, rfl, h1 ▸ hi, hd, h2, hp, h3, hcj, hc,
              h4.1, h4.2⟩
          · exact absurd h (by simp)
        · exact absurd h (by simp)
      · exact absurd h (by simp)
    · rintro ⟨fields, d, p, cj, c, rfl, hi, hd, hdm, hp, hpm, hcj, hc, hc0, hc1⟩
      refine ⟨⟨"COMPLAINT", d, p, c⟩, ?_⟩
      simp [ClassificationResponse.validate, hi, hd, hp, hcj, hc, hdm, hpm, hc0, hc1]
  · rfl

theorem firstIdxOf_cons (c a : Char) (t : List Char) :
    firstIdxOf c (a :: t) = if a = c then some 0 else (firstIdxOf c t).map (· + 1) :=
  rfl

theorem lastIdxOf_cons (c a : Char) (t : List Char) :
    lastIdxOf c (a :: t) =
      match lastIdxOf c t with
      | some k => some (k + 1)
      | none => if a = c then some 0 else none :=
  rfl

theorem searchBrace_cons (c : Char) (t : List Char) :
    searchBrace (c :: t) =
      if c = '\x7b' then
        match lastIdxOf '\x7d' t with
        | some k => some (c :: t.take (k + 1))
        | none => searchBrace t
      else searchBrace t :=
  rfl

theorem specBraceSpan_cons_lbrace (t : List Char) (k : Nat)
    (hlast : lastIdxOf '\x7d' t = some k) :
    specBraceSpan ('\x7b' :: t) = some ('\x7b' :: t.take (k + 1)) := by
  unfold specBraceSpan
  have h1 : firstIdxOf '\x7b' ('\x7b' :: t) = some 0 := by
    rw [firstIdxOf_cons, if_pos rfl]
  have h2 : lastIdxOf '\x7d' ('\x7b' :: t) = some (k + 1) := by
    rw [lastIdxOf_cons, hlast]
  rw [h1, h2]
  dsimp only
  rw [if_pos (Nat.succ_pos k)]
  simp [List.take_succ_cons]

theorem specBraceSpan_last_none (l : List Char)
    (hlast : lastIdxOf '\x7d' l = none) : specBraceSpan l = none := by
  unfold specBraceSpan
  rw [hlast]
  cases firstIdxOf '\x7b' l <;> rfl

theorem specBraceSpan_cons_ne (c : Char) (t : List Char) (hc : c ≠ '\x7b') :
    specBraceSpan (c :: t) = specBraceSpan t := by
  unfold specBraceSpan
  have hfirst : firstIdxOf '\x7b' (c :: t) = (firstIdxOf '\x7b' t).map (· + 1) := by
    rw [firstIdxOf_cons, if_neg hc]
  rw [hfirst]
  cases hf : firstIdxOf '\x7b' t with
  | none =>
      rw [Option.map_none']
  | some i =>
    rw [Option.map_some']
    cases hlast : lastIdxOf '\x7d' t with
    | some k =>
        have h2 : lastIdxOf '\x7d' (c :: t) = some (k + 1) := by
          rw [lastIdxOf_cons, hlast]
        rw [h2]
        dsimp only
        by_cases hik : i < k
        · rw [if_pos (by omega), if_pos hik, List.drop_succ_cons]
          have harith : k + 1 - (i + 1) + 1 = k - i + 1 := by omega
          rw [harith]
        · rw [if_neg (by omega), if_neg hik]
    | none =>
        have h2 : lastIdxOf '\x7d' (c :: t) = if c = '\x7d' then some 0 else none := by
          rw [lastIdxOf_cons, hlast]
        rw [h2]
        by_cases hcr : c = '\x7d'
        · rw [if_pos hcr]
          dsimp only
          rw [if_neg (by omega)]
        · rw [if_neg hcr]

/-- The operational regex search agrees with the spec's "first `{` to
last `}`" description of the extracted span. -/
theorem searchBrace_eq_spec : ∀ l : List Char, searchBrace l = specBraceSpan l := by
  intro l
  induction l with
  | nil => rfl
  | cons c t ih =>
    by_cases hc : c = '\x7b'
    · subst hc
      cases hlast : lastIdxOf '\x7d' t with
      | some k =>
          rw [specBraceSpan_cons_lbrace t k hlast, searchBrace_cons, if_pos rfl, hlast]
      | none =>
          have h2 : lastIdxOf '\x7d' ('\x7b' :: t) = none := by
            rw [lastIdxOf_cons, hlast, if_neg (by decide)]
          rw [specBraceSpan_last_none _ h2, searchBrace_cons, if_pos rfl, hlast]
          dsimp only
          rw [ih, specBraceSpan_last_none t hlast]
    · rw [searchBrace_cons, if_neg hc, ih, specBraceSpan_cons_ne c t hc]

/-- Claim C8: `extract_json` parses as JSON exactly the substring from
the first `{` to the last `}` of the raw text; with no such span it
fails with the extraction error, and a decoder failure on the span is
reported as a parse error — no repair, no inner span. -/
theorem extract_json_spec (loads : String → Except String Json) (text : String) :
    (specBraceSpan text.data = none →
       extract_json loads text = .error (.extraction "No JSON found in response"))
  ∧ (∀ sp, specBraceSpan text.data = some sp →
       extract_json loads text = (loads (String.mk sp)).mapError ExtractError.parse)
  ∧ extract_json loads "pre \x7ba\x7d mid \x7bb\x7d post"
      = (loads "\x7ba\x7d mid \x7bb\x7d").mapError ExtractError.parse := by
  refine ⟨?_, ?_, rfl⟩
  · intro h
    simp [extract_json, searchBrace_eq_spec, h]
  · intro sp h
    simp [extract_json, searchBrace_eq_spec, h]

end AIService
